import Mathlib

/-!
A verification development for the a11y-agent repository.

The Python sources are shallowly embedded as executable Lean definitions:

* conversation items are records of role and content strings;
* exceptions are modelled with an explicit error type, one constructor per
  raise site (the spec names the validation errors InvalidTurnInput and the
  safety errors SafetyCheckRejected, so those names are used for the tags);
* object state is passed explicitly, and every function that can raise
  returns an Except value or pairs its result with an optional error;
* external collaborators (the LLM response stream, the speech backends, the
  Playwright session) are parameters of the embedding, never inspected.
-/

namespace A11y

/-- A conversation item: a mapping with a role and a content string, as used
by main.py and both agent providers. -/
structure Item where
  role : String
  content : String
deriving DecidableEq, Repr

/-- Error taxonomy of the embedding.  Each constructor corresponds to one
raise site of the source (or to an exhausted external environment):

* invalidTurnInput: the three ValueError raises validating the items list in
  both providers (the spec calls this class of error InvalidTurnInput);
* safetyCheckRejected: the ValueError raised in Agent.handle_item when a
  pending safety check is not acknowledged (SafetyCheckRejected in the spec);
* blockedUrl: check_blocklisted_url failing (utils.py is not part of the
  sources; modelled from the spec sentence about the URL blocklist);
* attributeError: getattr on a missing computer_call action method;
* keyErr: indexing a dict that lacks the accessed key;
* noResponse: the response environment ran out of model outputs;
* exitFailed: the computer teardown raised inside close();
* stopFailed: BrowserSession.stop raised inside close(). -/
inductive Err where
  | invalidTurnInput (msg : String)
  | safetyCheckRejected (msg : String)
  | blockedUrl (url : String)
  | attributeError (name : String)
  | keyErr
  | noResponse
  | exitFailed
  | stopFailed
deriving DecidableEq, Repr

/-- The computer object used by the computer-use provider and its Agent.
The concrete class (BasePlaywrightComputer) is outside the given sources, so
only the surface that the sources call is modelled:

* methods: the attribute names that hasattr/getattr dispatch can find;
* environment: result of get_environment();
* dimensions: result of get_dimensions();
* screenshotData: result of screenshot();
* currentUrl: result of get_current_url();
* blocklisted: modelled from the spec: utils.check_blocklisted_url is not in
  the sources; the spec says a URL blocklist match fails the turn;
* hasExit: whether getattr(computer, "__exit__", None) yields a callable;
* exitRaises: whether that callable raises when invoked. -/
structure Computer where
  methods : List String
  environment : String
  dimensions : Nat × Nat
  screenshotData : String
  currentUrl : String
  blocklisted : String → Bool
  hasExit : Bool
  exitRaises : Bool

/-- Items flowing through Agent.run_full_turn and Agent.handle_item.  The
first five constructors mirror the dict shapes keyed by "type"; the plain
constructor mirrors a role/content dict without a "type" key. -/
inductive RItem where
  | message (role : String) (texts : List String)
  | function_call (name : String) (arguments : List (String × String)) (call_id : String)
  | computer_call (action_type : String) (action_args : List (String × String))
      (pending_safety_checks : List String) (call_id : String)
  | function_call_output (call_id : String) (output : Option String)
  | computer_call_output (call_id : String) (image_url : String) (current_url : Option String)
  | plain (role : String) (content : String)
deriving DecidableEq, Repr

/-- The value of item.get("role") for an RItem. -/
def RItem.roleOf : RItem → Option String
  | .message r _ => some r
  | .plain r _ => some r
  | _ => none

/-- Result of Agent.handle_item: the produced output items together with the
log of computer methods actually invoked (name and keyword arguments). -/
structure HandleResult where
  outputs : List RItem
  calls : List (String × List (String × String))
deriving DecidableEq, Repr

/-- Agent.handle_item from agent.py.  A message item only narrates through
the step handler (a side effect outside the embedding) and yields [].  A
function_call item dispatches through hasattr/getattr: the method is invoked
and the output is "success" only when the name exists on the computer,
otherwise the output is None and nothing is invoked.  A computer_call item
invokes the action (getattr raises when the action method is missing), takes
a screenshot, then iterates the pending safety checks and raises at the
first one that the acknowledgement callback rejects; only afterwards is the
computer_call_output built, and in browser environments the current URL is
checked against the blocklist and attached.  Items carrying other "type"
values fall through every branch and yield []; a plain role/content dict has
no "type" key, so the subscript raises. -/
def handleItem (computer : Computer) (ack : String → Bool) (item : RItem) :
    Except Err HandleResult :=
  match item with
  | .message _ _ => .ok ⟨[], []⟩
  | .function_call name args cid =>
    if computer.methods.contains name then
      .ok ⟨[.function_call_output cid (some "success")], [(name, args)]⟩
    else
      .ok ⟨[.function_call_output cid none], []⟩
  | .computer_call atype aargs checks cid =>
    if computer.methods.contains atype then
      match checks.find? (fun m => ! ack m) with
      | some m => .error (.safetyCheckRejected m)
      | none =>
        if computer.environment = "browser" then
          if computer.blocklisted computer.currentUrl then
            .error (.blockedUrl computer.currentUrl)
          else
            .ok ⟨[.computer_call_output cid computer.screenshotData (some computer.currentUrl)],
              [(atype, aargs)]⟩
        else
          .ok ⟨[.computer_call_output cid computer.screenshotData none], [(atype, aargs)]⟩
    else
      .error (.attributeError atype)
  | .function_call_output _ _ => .ok ⟨[], []⟩
  | .computer_call_output _ _ _ => .ok ⟨[], []⟩
  | .plain _ _ => .error .keyErr

/-- handle_item applied to every item of one model response in order; a
raise anywhere aborts the whole turn. -/
def handleAll (computer : Computer) (ack : String → Bool) :
    List RItem → Except Err HandleResult
  | [] => .ok ⟨[], []⟩
  | i :: rest => do
    let r ← handleItem computer ack i
    let rs ← handleAll computer ack rest
    pure ⟨r.outputs ++ rs.outputs, r.calls ++ rs.calls⟩

/-- The while loop of Agent.run_full_turn.  The loop stops once new_items is
non-empty and its last element carries role "assistant"; otherwise it takes
the next response of the environment (create_response lives in utils.py,
outside the sources, so the stream of model responses is a parameter),
appends the response output and then every handle_item result. -/
def agentLoop (computer : Computer) (ack : String → Bool)
    (responses : List (List RItem)) (new_items : List RItem) : Except Err (List RItem) :=
  if new_items.getLast?.bind RItem.roleOf = some "assistant" then
    .ok new_items
  else
    match responses with
    | [] => .error .noResponse
    | r :: rest =>
      match handleAll computer ack r with
      | .error e => .error e
      | .ok h => agentLoop computer ack rest (new_items ++ r ++ h.outputs)

/-- Agent.run_full_turn from agent.py.  The base items (system message plus
the caller input) feed create_response only, which the response environment
already models, so the computation is the loop started on an empty
new_items list. -/
def agentRunFullTurn (computer : Computer) (ack : String → Bool)
    (responses : List (List RItem)) (_input_items : List RItem) : Except Err (List RItem) :=
  agentLoop computer ack responses []

/-- One entry of the Agent.tools list; only the computer-preview entry that
Agent.__init__ appends is ever constructed by the sources. -/
structure Tool where
  ttype : String
  display_width : Nat
  display_height : Nat
  environment : String
deriving DecidableEq, Repr

/-- The part of an Agent instance that Agent.__init__ shapes and that the
shared-default claim is about: the reference (a heap index) of the list that
self.tools aliases. -/
structure AgentObj where
  toolsRef : Nat
deriving DecidableEq, Repr

/-- The computer-preview tool entry built in Agent.__init__. -/
def computerPreviewTool (c : Computer) : Tool :=
  ⟨"computer-preview", c.dimensions.1, c.dimensions.2, c.environment⟩

/-- Agent.__init__ under CPython semantics for the mutable default argument
tools: list[dict] = [].  The default list object is allocated once when the
def statement runs; the heap (a list of list objects indexed by reference)
and the reference of that shared default are explicit.  A call without a
tools argument binds the default reference; self.tools = tools aliases it,
and self.tools += [entry] mutates the referenced list in place. -/
def agentInit (heap : List (List Tool)) (defaultRef : Nat)
    (computer : Option Computer) (toolsArg : Option Nat) : List (List Tool) × AgentObj :=
  let ref := toolsArg.getD defaultRef
  match computer with
  | none => (heap, ⟨ref⟩)
  | some c => (heap.set ref (heap.getD ref [] ++ [computerPreviewTool c]), ⟨ref⟩)

/-- Python str.strip() on a character list: leading and trailing whitespace
removed. -/
def stripChars (l : List Char) : List Char :=
  ((l.dropWhile Char.isWhitespace).reverse.dropWhile Char.isWhitespace).reverse

/-- Python str.strip(): whitespace removed from both ends (structurally
recursive so that concrete instances compute inside the kernel). -/
def pyStrip (s : String) : String :=
  ⟨stripChars s.data⟩

/-- The persistent browser session held by BrowserUseAgentProvider.  The
BrowserSession class is external; the one behaviour the sources depend on is
whether its stop() raises during cleanup. -/
structure Session where
  stopRaises : Bool
deriving DecidableEq, Repr

/-- BrowserSession.stop as seen by close(): it either succeeds or raises. -/
def sessionStop (s : Session) : Except Err Unit :=
  if s.stopRaises then .error .stopFailed else .ok ()

/-- Mutable state of a BrowserUseAgentProvider instance (the lazily created
ChatOpenAI handle is irrelevant to every claim and omitted). -/
structure BrowserState where
  browser_session : Option Session
deriving DecidableEq, Repr

/-- State of a freshly constructed BrowserUseAgentProvider. -/
def browserInit : BrowserState := ⟨none⟩

/-- The history string for one prior (user, assistant) pair, as formatted in
BrowserUseAgentProvider.run_full_turn. -/
def renderPair (u a : Item) : String :=
  "User: " ++ u.content ++ "\nAgent: " ++ a.content

/-- The history-building while loop of BrowserUseAgentProvider.run_full_turn,
indexed exactly as in the source: while i < len(items) - 1, a pair is
emitted when items[i] has role user, i + 1 < len(items) - 1 and items[i + 1]
has role assistant, advancing i by 2 on a pair and by 1 otherwise. -/
def historyPairsGo (items : List Item) (i : Nat) : List String :=
  if h : i < items.length - 1 then
    if (items.get ⟨i, by omega⟩).role = "user"
        ∧ i + 1 < items.length - 1
        ∧ (items.get ⟨i + 1, by omega⟩).role = "assistant" then
      renderPair (items.get ⟨i, by omega⟩) (items.get ⟨i + 1, by omega⟩)
        :: historyPairsGo items (i + 2)
    else
      historyPairsGo items (i + 1)
  else
    []
termination_by items.length - i
decreasing_by all_goals omega

/-- The message_context value built from the history pairs: the pairs joined
with blank lines, or None when no pair was formed. -/
def messageContext (items : List Item) : Option String :=
  let history_pairs := historyPairsGo items 0
  if history_pairs = [] then none
  else some (String.intercalate "\n\n" history_pairs)

/-- Successful outcome of BrowserUseAgentProvider.run_full_turn: whether the
initial go_to_url action was prepared (start_url given and no session yet),
the message_context and task handed to the engine, the returned items and
the provider state afterwards. -/
structure BrowserOk where
  navigated : Bool
  message_context : Option String
  task : String
  output : List Item
  state : BrowserState
deriving DecidableEq, Repr

/-- BrowserUseAgentProvider.run_full_turn.  Validation raises on an empty
items list, on a last item whose role is not user, and on a stripped-empty
current task.  A go_to_url initial action is added only when start_url is
non-empty and no session exists yet; the session is created on first use and
kept; the engine run itself is external, so its summary text is the
result_text parameter (final_result or the str fallback both end up here)
and the fresh session object is the newSession parameter. -/
def browserRunFullTurn (st : BrowserState) (items : List Item) (start_url : String)
    (result_text : String) (newSession : Session) : Except Err BrowserOk :=
  match items.getLast? with
  | none => .error (.invalidTurnInput "items list cannot be empty")
  | some last_item =>
    if last_item.role ≠ "user" then
      .error (.invalidTurnInput "last item must be a user message")
    else
      let current_task := pyStrip last_item.content
      if current_task = "" then
        .error (.invalidTurnInput "current user message is empty")
      else
        let navigated := (!(start_url == "")) && st.browser_session.isNone
        let sess := st.browser_session.getD newSession
        .ok ⟨navigated, messageContext items, current_task,
          [⟨"assistant", result_text⟩], ⟨some sess⟩⟩

/-- BrowserUseAgentProvider.close: stop the session if one exists, swallow
any exception from stop, and clear the reference in the finally block.  The
first component records whether the call raised past the caller. -/
def browserClose (st : BrowserState) : Option Err × BrowserState :=
  match st.browser_session with
  | none => (none, st)
  | some s =>
    match sessionStop s with
    | .ok _ => (none, ⟨none⟩)
    | .error _ => (none, ⟨none⟩)

/-- Mutable state of a CuaAgentProvider instance: the entered computer, the
presence of the lazily built Agent, and the first-turn flag that gates the
start_url navigation. -/
structure CuaState where
  computer : Option Computer
  agent_present : Bool
  initial_turn : Bool

/-- State of a freshly constructed CuaAgentProvider. -/
def cuaInit : CuaState := ⟨none, false, true⟩

/-- External environment of one CuaAgentProvider.run_full_turn call: the
computer instance a lazy construction would enter, the stream of model
responses, and the safety acknowledgement callback. -/
structure CuaEnv where
  newComputer : Computer
  responses : List (List RItem)
  ack : String → Bool

/-- Full outcome of CuaAgentProvider.run_full_turn: the returned items or
the propagated error, whether the start_url navigation ran, and the provider
state afterwards (mutations performed before a raise persist). -/
structure CuaTurnResult where
  result : Except Err (List RItem)
  navigated : Bool
  state : CuaState

/-- CuaAgentProvider.run_full_turn.  Validation raises on an empty items
list and on a last item whose role is not user; the source performs no check
on the content of that last item.  The computer is entered lazily, the inner
Agent is created on first use (later calls only swap its step handler), the
computer.goto(start_url) navigation runs only when start_url is non-empty
and the first-turn flag still holds, and the finally block clears that flag.
The turn is then delegated to Agent.run_full_turn. -/
def cuaRunFullTurn (st : CuaState) (items : List Item) (start_url : String)
    (env : CuaEnv) : CuaTurnResult :=
  match items.getLast? with
  | none => ⟨.error (.invalidTurnInput "items list cannot be empty"), false, st⟩
  | some last_item =>
    if last_item.role ≠ "user" then
      ⟨.error (.invalidTurnInput "last item must be a user message"), false, st⟩
    else
      let computer := st.computer.getD env.newComputer
      let navigated := (!(start_url == "")) && st.initial_turn
      let initial_turn := if navigated then false else st.initial_turn
      let st1 : CuaState := ⟨some computer, true, initial_turn⟩
      ⟨agentRunFullTurn computer env.ack env.responses
        (items.map (fun it => RItem.plain it.role it.content)), navigated, st1⟩

/-- The computer teardown call made by close(): exit_func(None, None, None),
which either succeeds or raises. -/
def computerExit (c : Computer) : Except Err Unit :=
  if c.exitRaises then .error .exitFailed else .ok ()

/-- CuaAgentProvider.close.  When a computer exists, its callable __exit__
is invoked inside try/finally: the finally block always clears the computer
reference, but there is no except clause, so a raising teardown propagates
past the caller and the trailing line clearing the agent reference is then
never reached. -/
def cuaClose (st : CuaState) : Option Err × CuaState :=
  match st.computer with
  | none => (none, { st with agent_present := false })
  | some c =>
    if c.hasExit then
      match computerExit c with
      | .ok _ => (none, ⟨none, false, st.initial_turn⟩)
      | .error e => (some e, ⟨none, st.agent_present, st.initial_turn⟩)
    else
      (none, ⟨none, false, st.initial_turn⟩)

/-- Inputs of one browser-variant turn in a call sequence. -/
structure BrowserCall where
  items : List Item
  start_url : String
  result_text : String
  newSession : Session

/-- Navigation flags produced by a sequence of browser-variant turns on one
provider instance; a validation error leaves the state unchanged. -/
def browserRunSeq (st : BrowserState) : List BrowserCall → List Bool
  | [] => []
  | c :: rest =>
    match browserRunFullTurn st c.items c.start_url c.result_text c.newSession with
    | .ok r => r.navigated :: browserRunSeq r.state rest
    | .error _ => false :: browserRunSeq st rest

/-- Inputs of one computer-use-variant turn in a call sequence. -/
structure CuaCall where
  items : List Item
  start_url : String
  env : CuaEnv

/-- Navigation flags produced by a sequence of computer-use-variant turns on
one provider instance. -/
def cuaRunSeq (st : CuaState) : List CuaCall → List Bool
  | [] => []
  | c :: rest =>
    let r := cuaRunFullTurn st c.items c.start_url c.env
    r.navigated :: cuaRunSeq r.state rest

/-- Precondition of the turn contract as both providers would accept it for
the browser variant: a non-empty items list ending in a user item with
non-blank content. -/
def validTurnItems (items : List Item) : Prop :=
  match items.getLast? with
  | none => False
  | some last => last.role = "user" ∧ pyStrip last.content ≠ ""

/-- The part of the precondition that the computer-use variant checks: a
non-empty items list ending in a user item. -/
def cuaItemsChecked (items : List Item) : Prop :=
  match items.getLast? with
  | none => False
  | some last => last.role = "user"

/-- One element of a list passed to speak: either a dict carrying a "text"
entry or any other value rendered with str. -/
inductive TextPart where
  | textDict (text : String)
  | other (s : String)
deriving DecidableEq, Repr

/-- Input accepted by VoiceIO.speak: a plain string or a list of parts. -/
inductive TextContent where
  | str (s : String)
  | parts (ps : List TextPart)
deriving DecidableEq, Repr

/-- The string a part contributes during normalization. -/
def partText : TextPart → String
  | .textDict t => t
  | .other s => s

/-- The normalization at the top of VoiceIO.speak: list content is joined
with single spaces, strings pass through. -/
def normalizeText : TextContent → String
  | .str s => s
  | .parts ps => String.intercalate " " (ps.map partText)

/-- External environment of the speak model: the cache directory path, the
TTS provider file extension, the truncated SHA-256 digest (kept abstract, as
the claims never depend on its value), and the fresh temporary path chosen
by mkstemp for uncached synthesis. -/
structure SpeakEnv where
  cacheDir : String
  ext : String
  hashKey : String → String
  freshTemp : List String → String

/-- Observable state threaded through speak: the set of existing audio file
paths, the number of TTS synthesize calls made, and the number of playback
invocations made. -/
structure SpeakState where
  files : List String
  synthCalls : Nat
  playCalls : Nat
deriving DecidableEq, Repr

/-- Create a file at a path (overwriting keeps the path existing). -/
def addFile (p : String) (fs : List String) : List String :=
  if fs.contains p then fs else p :: fs

/-- TTSProvider.synthesize as implemented by OpenAIProvider: write the audio
bytes to the given output path, or to a fresh temporary path when no output
path is given, and return that path. -/
def synthesize (env : SpeakEnv) (st : SpeakState) (output_path : Option String) :
    String × SpeakState :=
  match output_path with
  | some p => (p, ⟨addFile p st.files, st.synthCalls + 1, st.playCalls⟩)
  | none =>
    let p := env.freshTemp st.files
    (p, ⟨addFile p st.files, st.synthCalls + 1, st.playCalls⟩)

/-- VoiceIO.play_audio, counted as one playback invocation. -/
def playAudio (st : SpeakState) : SpeakState :=
  { st with playCalls := st.playCalls + 1 }

/-- os.remove on a path. -/
def removeFile (p : String) (st : SpeakState) : SpeakState :=
  { st with files := st.files.filter (fun q => q != p) }

/-- The synthesize-play-cleanup tail of VoiceIO.speak, reached when no cache
hit occurred: synthesize into cached_path when caching (None otherwise),
play the result, and in the finally block remove the audio file only when it
exists and is not the cached path of a caching call. -/
def speakSynthPlay (env : SpeakEnv) (st : SpeakState) (cached_path : Option String) :
    SpeakState :=
  let r := synthesize env st cached_path
  let audio_path := r.1
  let st2 := playAudio r.2
  if st2.files.contains audio_path
      && (cached_path.isNone || !(cached_path == some audio_path)) then
    removeFile audio_path st2
  else
    st2

/-- VoiceIO.speak.  After normalization, blank text returns immediately.
With cache requested the deterministic cache path is derived from the hash
of the text and the provider extension; when that file exists it is played
directly and synthesis is skipped, otherwise synthesis targets the cache
path.  Without cache, synthesis goes to a temporary path that the finally
block always deletes. -/
def speak (env : SpeakEnv) (st : SpeakState) (text : TextContent) (cache : Bool) :
    SpeakState :=
  let t := normalizeText text
  if pyStrip t = "" then st
  else
    let cached_path : Option String :=
      if cache then some (env.cacheDir ++ "/" ++ env.hashKey t ++ env.ext) else none
    match cached_path with
    | some cp =>
      if st.files.contains cp then playAudio st
      else speakSynthPlay env st (some cp)
    | none => speakSynthPlay env st none

/-- The deterministic cache path speak derives for a text. -/
def cachePath (env : SpeakEnv) (text : TextContent) : String :=
  env.cacheDir ++ "/" ++ env.hashKey (normalizeText text) ++ env.ext

/-- Keys the push-to-talk listeners can observe. -/
inductive Key where
  | esc
  | space
  | other
deriving DecidableEq, Repr

/-- One push-to-talk gesture: the press stream seen by the initial listener,
whether Escape is pressed after recording has started, and the non-empty
audio chunks the stream callback enqueues between press and release. -/
structure Gesture where
  waitKeys : List Key
  escDuringRecording : Bool
  frames : List Int
deriving DecidableEq, Repr

/-- The first key the waiting listener reacts to: its on_press callback
returns False (stopping the listener) only for Escape and for the space
hotkey, so the first such key in the stream decides the outcome. -/
def firstSignal (ks : List Key) : Option Key :=
  ks.find? (fun k => k == Key.esc || k == Key.space)

/-- Outcome of one VoiceIO.push_to_talk call: the returned text and how many
transcribe calls were made on the STT provider. -/
structure PttResult where
  text : String
  sttCalls : Nat
deriving DecidableEq, Repr

/-- VoiceIO.push_to_talk.  The waiting listener stops at the first Escape or
space press; Escape there cancels and returns the empty string.  On a space
press the recording phase begins; the only listener active during recording
watches the space release, so an Escape press during recording has no
handler and the cancel event can no longer be set (the recording loop does
test it, but nothing sets it any more), which is why escDuringRecording does
not influence the result.  After release an empty queue returns the empty
string without STT, otherwise the concatenated frames are transcribed.  A
gesture whose wait stream never contains Escape or space blocks forever,
modelled as none. -/
def pushToTalk (transcribe : List Int → String) (g : Gesture) : Option PttResult :=
  match firstSignal g.waitKeys with
  | none => none
  | some Key.esc => some ⟨"", 0⟩
  | some _ =>
    if g.frames.isEmpty then some ⟨"", 0⟩
    else some ⟨transcribe g.frames, 1⟩

/-- Greedy adjacent pairing on a list, the list-structured counterpart of
the index-based history loop (used to bridge to the spec-side pairing). -/
def greedyPairs : List Item → List String
  | u :: a :: rest =>
    if u.role = "user" ∧ a.role = "assistant" then
      renderPair u a :: greedyPairs rest
    else
      greedyPairs (a :: rest)
  | _ => []

/-- Modelled from the spec: the consecutive (user, assistant) pairs found
among a list of items, each rendered and collected in order, items not
forming such adjacent pairs skipped. -/
def specAdjacentPairs : List Item → List String
  | u :: a :: rest =>
    (if u.role = "user" ∧ a.role = "assistant" then [renderPair u a] else [])
      ++ specAdjacentPairs (a :: rest)
  | _ => []

/-- Modelled from the spec: the context built from the items preceding the
current user message, joined with blank lines, None when no pair exists. -/
def specContext (prior : List Item) : Option String :=
  if specAdjacentPairs prior = [] then none
  else some (String.intercalate "\n\n" (specAdjacentPairs prior))

/-- A concrete computer instance for witness evaluation: two known action
methods, a non-browser environment, a teardown that succeeds. -/
def trivialComputer : Computer :=
  ⟨["goto", "click"], "mac", (1024, 768), "img", "about:blank", fun _ => false, true, false⟩

/-- A concrete computer whose callable teardown raises, for exercising the
close path. -/
def raisingComputer : Computer :=
  ⟨["goto"], "mac", (1024, 768), "img", "about:blank", fun _ => false, true, true⟩

/-- A concrete turn environment: the model immediately answers with one
assistant message and every safety check is acknowledged. -/
def cuaEnv0 : CuaEnv :=
  ⟨trivialComputer, [[RItem.message "assistant" ["done"]]], fun _ => true⟩

/-- A concrete speak environment with an identity hash. -/
def env0 : SpeakEnv :=
  ⟨"cache", ".mp3", fun s => s, fun _ => "tmp"⟩

/-- Validity of one browser-variant call in a sequence: the provider
precondition holds and a start url is supplied. -/
def browserCallValid (c : BrowserCall) : Prop :=
  validTurnItems c.items ∧ c.start_url ≠ ""

/-- Validity of one computer-use-variant call in a sequence: the checked
part of the precondition holds and a start url is supplied. -/
def cuaCallValid (c : CuaCall) : Prop :=
  cuaItemsChecked c.items ∧ c.start_url ≠ ""

/-! Helper lemmas bridging the index-based history loop, its list-structured
greedy counterpart and the spec-side adjacent pairing. -/

theorem historyPairsGo_eq (items : List Item) (i : Nat) :
    historyPairsGo items i = greedyPairs ((items.dropLast).drop i) := by
  refine historyPairsGo.induct items
    (fun j => historyPairsGo items j = greedyPairs ((items.dropLast).drop j)) ?_ ?_ ?_ i
  · intro j hj hc ih
    obtain ⟨hu, hlt, ha⟩ := hc
    have hj1 : j < items.dropLast.length := by rw [List.length_dropLast]; omega
    have hj2 : j + 1 < items.dropLast.length := by rw [List.length_dropLast]; omega
    have e1 : items.dropLast[j] = items.get ⟨j, by omega⟩ := by
      rw [List.getElem_dropLast]; simp
    have e2 : items.dropLast[j + 1] = items.get ⟨j + 1, by omega⟩ := by
      rw [List.getElem_dropLast]; simp
    have hplus : j + 1 + 1 = j + 2 := rfl
    have hdrop : greedyPairs (items.dropLast.drop j)
        = renderPair (items.get ⟨j, by omega⟩) (items.get ⟨j + 1, by omega⟩)
            :: greedyPairs (items.dropLast.drop (j + 2)) := by
      rw [List.drop_eq_getElem_cons hj1, List.drop_eq_getElem_cons hj2, e1, e2, hplus]
      rw [greedyPairs, if_pos ⟨hu, ha⟩]
    rw [historyPairsGo, dif_pos hj, if_pos ⟨hu, hlt, ha⟩, hdrop, ih]
  · intro j hj hc ih
    have hj1 : j < items.dropLast.length := by rw [List.length_dropLast]; omega
    have e1 : items.dropLast[j] = items.get ⟨j, by omega⟩ := by
      rw [List.getElem_dropLast]; simp
    by_cases hj2 : j + 1 < items.length - 1
    · have hj2' : j + 1 < items.dropLast.length := by rw [List.length_dropLast]; omega
      have e2 : items.dropLast[j + 1] = items.get ⟨j + 1, by omega⟩ := by
        rw [List.getElem_dropLast]; simp
      have hnc : ¬ (items.dropLast[j].role = "user" ∧ items.dropLast[j + 1].role = "assistant") := by
        rw [e1, e2]
        intro hcon
        exact hc ⟨hcon.1, hj2, hcon.2⟩
      have hstep : greedyPairs (items.dropLast.drop j) = greedyPairs (items.dropLast.drop (j + 1)) := by
        rw [List.drop_eq_getElem_cons hj1, List.drop_eq_getElem_cons hj2']
        rw [greedyPairs, if_neg hnc]
      rw [historyPairsGo, dif_pos hj, if_neg hc, ih, hstep]
    · have hnil : items.dropLast.drop (j + 1) = [] := by
        apply List.drop_eq_nil_of_le
        rw [List.length_dropLast]; omega
      rw [historyPairsGo, dif_pos hj, if_neg hc, ih, List.drop_eq_getElem_cons hj1, hnil]
      rfl
  · intro j hj
    have hnil : items.dropLast.drop j = [] := by
      apply List.drop_eq_nil_of_le
      rw [List.length_dropLast]; omega
    rw [historyPairsGo, dif_neg hj, hnil]
    rfl

theorem specAdjacentPairs_cons_not_user (x : Item) (l : List Item) (hx : ¬ x.role = "user") :
    specAdjacentPairs (x :: l) = specAdjacentPairs l := by
  cases l with
  | nil => rfl
  | cons y r =>
    rw [specAdjacentPairs, if_neg]
    · simp
    · intro hcon; exact hx hcon.1

theorem greedyPairs_eq_spec (l : List Item) : greedyPairs l = specAdjacentPairs l := by
  refine greedyPairs.induct (fun l => greedyPairs l = specAdjacentPairs l) ?_ ?_ ?_ l
  · intro u a rest hc ih
    rw [greedyPairs, if_pos hc, specAdjacentPairs, if_pos hc]
    rw [specAdjacentPairs_cons_not_user a rest (by rw [hc.2]; decide)]
    simp [ih]
  · intro u a rest hc ih
    rw [greedyPairs, if_neg hc, specAdjacentPairs, if_neg hc]
    simp [ih]
  · intro t ht
    match t, ht with
    | [], _ => rfl
    | [x], _ => rfl
    | u :: a :: rest, ht => exact absurd rfl (ht u a rest)

theorem messageContext_eq_specContext (items : List Item) :
    messageContext items = specContext items.dropLast := by
  rw [messageContext, specContext]
  have h0 : historyPairsGo items 0 = specAdjacentPairs items.dropLast := by
    rw [historyPairsGo_eq, List.drop_zero, greedyPairs_eq_spec]
  simp only [h0]

theorem handleItem_ne_invalidTurn (c : Computer) (ack : String → Bool) (it : RItem)
    (m : String) : handleItem c ack it ≠ .error (.invalidTurnInput m) := by
  cases it <;> simp only [handleItem] <;> intro h
  · exact Except.noConfusion h
  · split at h <;> exact Except.noConfusion h
  · split at h
    · split at h
      · simp only [Except.error.injEq] at h
        exact Err.noConfusion h
      · split at h
        · split at h
          · simp only [Except.error.injEq] at h
            exact Err.noConfusion h
          · exact Except.noConfusion h
        · exact Except.noConfusion h
    · simp only [Except.error.injEq] at h
      exact Err.noConfusion h
  · exact Except.noConfusion h
  · exact Except.noConfusion h
  · simp only [Except.error.injEq] at h
    exact Err.noConfusion h

theorem handleAll_ne_invalidTurn (c : Computer) (ack : String → Bool) (l : List RItem)
    (m : String) : handleAll c ack l ≠ .error (.invalidTurnInput m) := by
  induction l with
  | nil => intro h; exact Except.noConfusion h
  | cons i rest ih =>
    intro h
    simp only [handleAll, bind, Except.bind] at h
    cases hi : handleItem c ack i with
    | error e =>
      rw [hi] at h
      simp only [] at h
      exact handleItem_ne_invalidTurn c ack i m (hi.trans h)
    | ok r =>
      rw [hi] at h
      cases hr : handleAll c ack rest with
      | error e =>
        rw [hr] at h
        exact ih (hr.trans h)
      | ok rs =>
        rw [hr] at h
        exact Except.noConfusion h

theorem agentLoop_ne_invalidTurn (c : Computer) (ack : String → Bool)
    (responses : List (List RItem)) (new_items : List RItem) (m : String) :
    agentLoop c ack responses new_items ≠ .error (.invalidTurnInput m) := by
  induction responses generalizing new_items with
  | nil =>
    intro h
    rw [agentLoop] at h
    split at h
    · exact Except.noConfusion h
    · simp only [Except.error.injEq] at h
      exact Err.noConfusion h
  | cons r rest ih =>
    intro h
    rw [agentLoop] at h
    split at h
    · exact Except.noConfusion h
    · split at h
      · rename_i e heq
        injection h with h2
        rw [h2] at heq
        exact handleAll_ne_invalidTurn c ack r m heq
      · exact ih _ h

/-- C1 (amended): both variants fail with InvalidTurnInput exactly when the
validation they implement rejects the items list: the browser-use variant
when the list is empty, the last role is not user, or the stripped content
of the last item is empty; the computer-use variant only when the list is
empty or the last role is not user (it performs no content check). -/
theorem invalid_turn_input_validation :
    (∀ (st : BrowserState) (items : List Item) (su rt : String) (ns : Session),
      (∃ m, browserRunFullTurn st items su rt ns = .error (.invalidTurnInput m))
        ↔ ¬ validTurnItems items) ∧
    (∀ (st : CuaState) (items : List Item) (su : String) (env : CuaEnv),
      (∃ m, (cuaRunFullTurn st items su env).result = .error (.invalidTurnInput m))
        ↔ ¬ cuaItemsChecked items) := by
  constructor
  · intro st items su rt ns
    rw [browserRunFullTurn, validTurnItems]
    cases hl : items.getLast? with
    | none => simp
    | some last =>
      by_cases hr : last.role = "user"
      · by_cases hcont : pyStrip last.content = ""
        · simp [hr, hcont]
        · simp [hr, hcont]
      · simp [hr]
  · intro st items su env
    rw [cuaRunFullTurn, cuaItemsChecked]
    cases hl : items.getLast? with
    | none => simp
    | some last =>
      by_cases hr : last.role = "user"
      · simp only [hr, ne_eq, not_true_eq_false, not_false_eq_true, ite_false,
          eq_self_iff_true, iff_false, not_exists]
        intro m hm
        rw [agentRunFullTurn] at hm
        exact agentLoop_ne_invalidTurn _ _ _ _ m hm
      · simp [hr]

/-- C1 (counterexample): the computer-use variant accepts a whitespace-only
user message: no InvalidTurnInput error is raised and the turn proceeds to
the agent, contradicting the claim that every variant raises on
empty/whitespace content. -/
theorem cua_accepts_blank_user_content :
    (cuaRunFullTurn cuaInit [⟨"user", "   "⟩] "https://example.com" cuaEnv0).result
        = .ok [RItem.message "assistant" ["done"]] ∧
    (cuaRunFullTurn cuaInit [⟨"user", "   "⟩] "https://example.com" cuaEnv0).navigated
        = true :=
  ⟨rfl, rfl⟩

/-- C2: the code evaluated at the failing gesture.  A gesture that presses
the hotkey, sees Escape after recording has started and captures one frame
is transcribed (one STT call, transcription returned): the mid-recording
cancel is ignored because no active listener can set the cancel event.  The
second conjunct shows the only implemented cancellation: Escape before the
hotkey press returns empty text with zero STT calls. -/
theorem ptt_escape_mid_recording_is_ignored :
    pushToTalk (fun _ => "hello world") ⟨[Key.space], true, [1]⟩
        = some ⟨"hello world", 1⟩ ∧
    pushToTalk (fun _ => "hello world") ⟨[Key.esc, Key.space], false, [1]⟩
        = some ⟨"", 0⟩ :=
  ⟨rfl, rfl⟩

/-- C9: a function_call whose name is not a method of the computer is a
silent no-op: handle_item returns one function_call_output with the matching
call id and a None output, invoking nothing; when the name exists the method
is invoked and the output is "success". -/
theorem unknown_function_call_is_silent_noop (c : Computer) (ack : String → Bool)
    (name : String) (args : List (String × String)) (cid : String) :
    (c.methods.contains name = false →
      handleItem c ack (.function_call name args cid)
        = .ok ⟨[.function_call_output cid none], []⟩) ∧
    (c.methods.contains name = true →
      handleItem c ack (.function_call name args cid)
        = .ok ⟨[.function_call_output cid (some "success")], [(name, args)]⟩) := by
  constructor
  · intro h
    have h2 : name ∉ c.methods := by simpa using h
    simp [handleItem, h2]
  · intro h
    have h2 : name ∈ c.methods := by simpa using h
    simp [handleItem, h2]

/-- C9 witness: both branches at a concrete computer and name. -/
theorem unknown_function_call_is_silent_noop_witness :
    handleItem trivialComputer (fun _ => true) (.function_call "fly" [] "c1")
        = .ok ⟨[.function_call_output "c1" none], []⟩ ∧
    handleItem trivialComputer (fun _ => true) (.function_call "goto" [("url", "x")] "c2")
        = .ok ⟨[.function_call_output "c2" (some "success")], [("goto", [("url", "x")])]⟩ :=
  ⟨(unknown_function_call_is_silent_noop trivialComputer (fun _ => true) "fly" [] "c1").1 rfl,
   (unknown_function_call_is_silent_noop trivialComputer (fun _ => true) "goto"
      [("url", "x")] "c2").2 rfl⟩

/-- C10: under CPython semantics, two Agent constructions with a computer
and the default tools argument alias one shared default list, which after
the second construction holds both computer-preview entries, so the first
instance's tools grew as a side effect of the second construction. -/
theorem default_tools_list_is_shared (c1 c2 : Computer) :
    (agentInit [[]] 0 (some c1) none).2.toolsRef = 0 ∧
    (agentInit (agentInit [[]] 0 (some c1) none).1 0 (some c2) none).2.toolsRef = 0 ∧
    (agentInit (agentInit [[]] 0 (some c1) none).1 0 (some c2) none).1.getD 0 []
      = [computerPreviewTool c1, computerPreviewTool c2] :=
  ⟨rfl, rfl, rfl⟩

/-- C4: a computer_call carrying a pending safety check that the callback
rejects makes handle_item raise SafetyCheckRejected before any
computer_call_output is produced, and the error propagates out of
Agent.run_full_turn, which then returns no items at all. -/
theorem safety_rejection_aborts_turn (c : Computer) (ack : String → Bool)
    (atype : String) (aargs : List (String × String)) (checks : List String) (cid : String)
    (hmeth : c.methods.contains atype = true)
    (hrej : ∃ m ∈ checks, ack m = false) :
    ∃ mr, handleItem c ack (.computer_call atype aargs checks cid)
        = .error (.safetyCheckRejected mr)
      ∧ ∀ (rest : List (List RItem)) (inputs : List RItem),
          agentRunFullTurn c ack ([RItem.computer_call atype aargs checks cid] :: rest) inputs
            = .error (.safetyCheckRejected mr) := by
  have hfind : (checks.find? (fun m => ! ack m)).isSome = true := by
    rw [List.find?_isSome]
    obtain ⟨m, hm, hf⟩ := hrej
    exact ⟨m, hm, by rw [hf]; rfl⟩
  obtain ⟨mr, hmr⟩ := Option.isSome_iff_exists.mp hfind
  have hmem : atype ∈ c.methods := by simpa using hmeth
  have hitem : handleItem c ack (.computer_call atype aargs checks cid)
      = .error (.safetyCheckRejected mr) := by
    simp [handleItem, hmem, hmr]
  refine ⟨mr, hitem, ?_⟩
  intro rest inputs
  have hall : handleAll c ack [RItem.computer_call atype aargs checks cid]
      = .error (.safetyCheckRejected mr) := by
    simp [handleAll, hitem, bind, Except.bind]
  rw [agentRunFullTurn, agentLoop]
  simp [hall]

/-- C4 witness: a concrete rejected check at a concrete computer_call. -/
theorem safety_rejection_aborts_turn_witness :
    ∃ mr, handleItem trivialComputer (fun _ => false) (.computer_call "click" [] ["confirm"] "c9")
        = .error (.safetyCheckRejected mr)
      ∧ ∀ (rest : List (List RItem)) (inputs : List RItem),
          agentRunFullTurn trivialComputer (fun _ => false)
              ([RItem.computer_call "click" [] ["confirm"] "c9"] :: rest) inputs
            = .error (.safetyCheckRejected mr) :=
  safety_rejection_aborts_turn trivialComputer (fun _ => false) "click" [] ["confirm"] "c9"
    rfl ⟨"confirm", by simp, rfl⟩

/-- C5 (counterexample): on a computer whose callable teardown raises, the
computer-use close() propagates the error past the caller (the finally
block still clears the computer reference, and the agent reference stays
set because the trailing line is never reached). -/
theorem cua_close_raises_on_teardown_failure :
    cuaClose ⟨some raisingComputer, true, true⟩
      = (some Err.exitFailed, ⟨none, true, true⟩) := rfl

/-- C5 (amended): the browser-use close() never raises in any state, and
the computer-use close() always clears the computer reference but can raise
only when a computer with a callable, raising teardown was present. -/
theorem close_error_containment :
    (∀ st : BrowserState, (browserClose st).1 = none) ∧
    (∀ st : CuaState,
      (cuaClose st).2.computer = none ∧
      ((cuaClose st).1 ≠ none →
        ∃ c, st.computer = some c ∧ c.hasExit = true ∧ c.exitRaises = true)) := by
  constructor
  · intro st
    cases hs : st.browser_session with
    | none => simp [browserClose, hs]
    | some s =>
      cases s with
      | mk b => cases b <;> simp [browserClose, hs, sessionStop]
  · intro st
    cases hc : st.computer with
    | none => simp [cuaClose, hc]
    | some c =>
      cases hex : c.hasExit with
      | false => simp [cuaClose, hc, hex]
      | true =>
        cases her : c.exitRaises with
        | false => simp [cuaClose, hc, hex, computerExit, her]
        | true =>
          refine ⟨by simp [cuaClose, hc, hex, computerExit, her], ?_⟩
          intro _
          exact ⟨c, rfl, hex, her⟩

/-- C5 witness: the browser close swallows a raising stop, and a successful
computer teardown does not raise. -/
theorem close_error_containment_witness :
    (browserClose ⟨some ⟨true⟩⟩).1 = none ∧
    (cuaClose ⟨some trivialComputer, true, true⟩).2.computer = none :=
  ⟨close_error_containment.1 ⟨some ⟨true⟩⟩,
   (close_error_containment.2 ⟨some trivialComputer, true, true⟩).1⟩

/-- C6: close() is idempotent for both variants: a second close never
raises and, after a first close that did not raise, leaves the state
exactly as the first close left it; close() on a provider that never
created a session is a safe no-op. -/
theorem close_twice_is_close_once :
    (∀ st : BrowserState, browserClose ((browserClose st).2) = (none, (browserClose st).2)) ∧
    (browserClose browserInit = (none, browserInit)) ∧
    (∀ st : CuaState, (cuaClose ((cuaClose st).2)).1 = none) ∧
    (∀ st : CuaState, (cuaClose st).1 = none →
      cuaClose ((cuaClose st).2) = (none, (cuaClose st).2)) ∧
    (∀ b : Bool, cuaClose ⟨none, false, b⟩ = (none, ⟨none, false, b⟩)) := by
  refine ⟨?_, rfl, ?_, ?_, ?_⟩
  · intro st
    cases hs : st.browser_session with
    | none => simp [browserClose, hs]
    | some s =>
      cases s with
      | mk b => cases b <;> simp [browserClose, hs, sessionStop]
  · intro st
    cases st with
    | mk comp ap it =>
      cases comp with
      | none => rfl
      | some c =>
        cases hex : c.hasExit with
        | false => simp [cuaClose, hex]
        | true =>
          cases her : c.exitRaises with
          | false => simp [cuaClose, hex, computerExit, her]
          | true => simp [cuaClose, hex, computerExit, her]
  · intro st h1
    cases st with
    | mk comp ap it =>
      cases comp with
      | none => rfl
      | some c =>
        cases hex : c.hasExit with
        | false => simp [cuaClose, hex]
        | true =>
          cases her : c.exitRaises with
          | false => simp [cuaClose, hex, computerExit, her]
          | true =>
            rw [show (cuaClose ⟨some c, ap, it⟩).1 = some Err.exitFailed by
              simp [cuaClose, hex, computerExit, her]] at h1
            exact Option.noConfusion h1
  · intro b
    rfl

/-- C6 witness: a double close at concrete states of both variants. -/
theorem close_twice_is_close_once_witness :
    browserClose ((browserClose ⟨some ⟨false⟩⟩).2) = (none, (browserClose ⟨some ⟨false⟩⟩).2) ∧
    cuaClose ((cuaClose ⟨some trivialComputer, true, true⟩).2)
      = (none, (cuaClose ⟨some trivialComputer, true, true⟩).2) :=
  ⟨close_twice_is_close_once.1 ⟨some ⟨false⟩⟩,
   close_twice_is_close_once.2.2.2.1 ⟨some trivialComputer, true, true⟩ rfl⟩


theorem browserRunFullTurn_ok (st : BrowserState) (items : List Item) (su rt : String)
    (ns : Session) (last : Item) (hl : items.getLast? = some last)
    (hrole : last.role = "user") (hcont : pyStrip last.content ≠ "") :
    browserRunFullTurn st items su rt ns
      = .ok ⟨(!(su == "")) && st.browser_session.isNone, messageContext items,
          pyStrip last.content, [⟨"assistant", rt⟩], ⟨some (st.browser_session.getD ns)⟩⟩ := by
  rw [browserRunFullTurn, hl]
  simp [hrole, hcont]

theorem browserRunSeq_after (st : BrowserState) (s : Session)
    (hs : st.browser_session = some s) (calls : List BrowserCall)
    (hv : ∀ c ∈ calls, browserCallValid c) :
    browserRunSeq st calls = calls.map (fun _ => false) := by
  induction calls generalizing st s with
  | nil => rfl
  | cons c rest ih =>
    obtain ⟨hvc, _⟩ := hv c (List.mem_cons_self c rest)
    cases hl : c.items.getLast? with
    | none =>
      rw [validTurnItems, hl] at hvc
      exact hvc.elim
    | some last =>
      rw [validTurnItems, hl] at hvc
      rw [browserRunSeq,
        browserRunFullTurn_ok st c.items c.start_url c.result_text c.newSession last hl
          hvc.1 hvc.2, hs]
      simp only [Option.isNone_some, Bool.and_false, Option.getD_some, List.map_cons]
      rw [ih ⟨some s⟩ s rfl (fun d hd => hv d (List.mem_cons_of_mem _ hd))]

theorem cuaRunFullTurn_stays_settled (st : CuaState) (hin : st.initial_turn = false)
    (items : List Item) (su : String) (env : CuaEnv) :
    (cuaRunFullTurn st items su env).navigated = false ∧
    (cuaRunFullTurn st items su env).state.initial_turn = false := by
  rw [cuaRunFullTurn]
  cases hl : items.getLast? with
  | none => simp [hin]
  | some last =>
    by_cases hr : last.role = "user"
    · simp [hr, hin]
    · simp [hr, hin]

theorem cuaRunSeq_after (st : CuaState) (hin : st.initial_turn = false)
    (calls : List CuaCall) : cuaRunSeq st calls = calls.map (fun _ => false) := by
  induction calls generalizing st with
  | nil => rfl
  | cons c rest ih =>
    obtain ⟨hnav, hst⟩ := cuaRunFullTurn_stays_settled st hin c.items c.start_url c.env
    rw [cuaRunSeq, hnav, List.map_cons, ih _ hst]

theorem cuaRunFullTurn_first_navigates (items : List Item) (last : Item) (su : String)
    (env : CuaEnv) (hl : items.getLast? = some last) (hr : last.role = "user")
    (hurl : su ≠ "") :
    (cuaRunFullTurn cuaInit items su env).navigated = true ∧
    (cuaRunFullTurn cuaInit items su env).state.initial_turn = false := by
  rw [cuaRunFullTurn, hl]
  have hb : (su == "") = false := beq_eq_false_iff_ne.mpr hurl
  simp [hr, hb, cuaInit]

/-- C3: on one provider instance with no intervening close, a sequence of
valid calls that all supply a non-empty start url navigates exactly on the
first call and never again, for both variants. -/
theorem navigate_at_most_once :
    (∀ (calls : List BrowserCall), (∀ c ∈ calls, browserCallValid c) →
      browserRunSeq browserInit calls
        = match calls with
          | [] => []
          | _ :: rest => true :: rest.map (fun _ => false)) ∧
    (∀ (calls : List CuaCall), (∀ c ∈ calls, cuaCallValid c) →
      cuaRunSeq cuaInit calls
        = match calls with
          | [] => []
          | _ :: rest => true :: rest.map (fun _ => false)) := by
  constructor
  · intro calls hv
    cases calls with
    | nil => rfl
    | cons c rest =>
      obtain ⟨hvc, hurl⟩ := hv c (List.mem_cons_self c rest)
      cases hl : c.items.getLast? with
      | none =>
        rw [validTurnItems, hl] at hvc
        exact hvc.elim
      | some last =>
        rw [validTurnItems, hl] at hvc
        rw [browserRunSeq,
          browserRunFullTurn_ok browserInit c.items c.start_url c.result_text c.newSession
            last hl hvc.1 hvc.2]
        have hb : (c.start_url == "") = false := beq_eq_false_iff_ne.mpr hurl
        simp only [browserInit, hb, Bool.not_false, Option.isNone_none, Bool.and_true,
          Option.getD_none]
        rw [browserRunSeq_after ⟨some c.newSession⟩ c.newSession rfl rest
          (fun d hd => hv d (List.mem_cons_of_mem _ hd))]
  · intro calls hv
    cases calls with
    | nil => rfl
    | cons c rest =>
      obtain ⟨hvc, hurl⟩ := hv c (List.mem_cons_self c rest)
      cases hl : c.items.getLast? with
      | none =>
        rw [cuaItemsChecked, hl] at hvc
        exact hvc.elim
      | some last =>
        rw [cuaItemsChecked, hl] at hvc
        obtain ⟨hnav, hst⟩ := cuaRunFullTurn_first_navigates c.items last c.start_url c.env
          hl hvc hurl
        rw [cuaRunSeq, hnav, cuaRunSeq_after _ hst]

/-- C3 witness: two-call sequences for both variants navigate exactly once. -/
theorem navigate_at_most_once_witness :
    browserRunSeq browserInit
        [⟨[⟨"user", "go"⟩], "https://a", "ok", ⟨false⟩⟩,
         ⟨[⟨"user", "go"⟩, ⟨"assistant", "ok"⟩, ⟨"user", "next"⟩], "https://a", "ok2", ⟨false⟩⟩]
      = [true, false] ∧
    cuaRunSeq cuaInit
        [⟨[⟨"user", "go"⟩], "https://a", cuaEnv0⟩,
         ⟨[⟨"user", "next"⟩], "https://a", cuaEnv0⟩]
      = [true, false] := by
  constructor
  · have h := navigate_at_most_once.1
      [⟨[⟨"user", "go"⟩], "https://a", "ok", ⟨false⟩⟩,
       ⟨[⟨"user", "go"⟩, ⟨"assistant", "ok"⟩, ⟨"user", "next"⟩], "https://a", "ok2", ⟨false⟩⟩]
      (by
        intro c hc
        fin_cases hc
        · exact ⟨⟨rfl, by decide⟩, by decide⟩
        · exact ⟨⟨rfl, by decide⟩, by decide⟩)
    simpa using h
  · have h := navigate_at_most_once.2
      [⟨[⟨"user", "go"⟩], "https://a", cuaEnv0⟩,
       ⟨[⟨"user", "next"⟩], "https://a", cuaEnv0⟩]
      (by
        intro c hc
        fin_cases hc
        · exact ⟨rfl, by decide⟩
        · exact ⟨rfl, by decide⟩)
    simpa using h

theorem contains_addFile (p : String) (fs : List String) :
    (addFile p fs).contains p = true := by
  rw [addFile]
  by_cases h : fs.contains p = true
  · rw [if_pos h]; exact h
  · rw [if_neg h]
    simp [List.contains_cons]

/-- C7 (counterexample): for the non-empty, whitespace-only text, two
cached speak calls make zero synthesis calls and zero playback invocations,
not one and two as claimed. -/
theorem speak_blank_text_is_noop :
    (speak env0 (speak env0 ⟨[], 0, 0⟩ (.str " ") true) (.str " ") true).synthCalls = 0 ∧
    (speak env0 (speak env0 ⟨[], 0, 0⟩ (.str " ") true) (.str " ") true).playCalls = 0 ∧
    (" " : String).length = 1 :=
  ⟨rfl, rfl, rfl⟩

/-- C7 (amended): for every text whose stripped normalization is non-empty
and whose cache entry does not exist yet, two cached speak calls make
exactly one synthesis call and two playback invocations, and the cache file
exists afterwards (it is never deleted). -/
theorem speak_cached_twice_single_synthesis (env : SpeakEnv) (st0 : SpeakState)
    (text : TextContent) (ht : ¬ pyStrip (normalizeText text) = "")
    (hfresh : st0.files.contains (cachePath env text) = false) :
    (speak env (speak env st0 text true) text true).synthCalls = st0.synthCalls + 1 ∧
    (speak env (speak env st0 text true) text true).playCalls = st0.playCalls + 2 ∧
    (speak env (speak env st0 text true) text true).files.contains (cachePath env text)
      = true := by
  have hst1 : speak env st0 text true
      = ⟨addFile (cachePath env text) st0.files, st0.synthCalls + 1, st0.playCalls + 1⟩ := by
    rw [speak, if_neg ht]
    simp only [ite_true, cachePath] at hfresh ⊢
    rw [if_neg (by simpa using hfresh)]
    rw [speakSynthPlay]
    simp [synthesize, playAudio, contains_addFile]
  have hsecond : speak env (speak env st0 text true) text true
      = ⟨addFile (cachePath env text) st0.files, st0.synthCalls + 1, st0.playCalls + 2⟩ := by
    rw [hst1, speak, if_neg ht]
    simp only [ite_true, cachePath]
    rw [if_pos]
    · rfl
    · exact contains_addFile _ _
  rw [hsecond]
  exact ⟨rfl, rfl, contains_addFile _ _⟩

/-- C7 witness: a concrete fresh text spoken twice with caching. -/
theorem speak_cached_twice_single_synthesis_witness :
    (speak env0 (speak env0 ⟨[], 0, 0⟩ (.str "hi") true) (.str "hi") true).synthCalls = 0 + 1 ∧
    (speak env0 (speak env0 ⟨[], 0, 0⟩ (.str "hi") true) (.str "hi") true).playCalls = 0 + 2 ∧
    (speak env0 (speak env0 ⟨[], 0, 0⟩ (.str "hi") true) (.str "hi") true).files.contains
        (cachePath env0 (.str "hi")) = true :=
  speak_cached_twice_single_synthesis env0 ⟨[], 0, 0⟩ (.str "hi") (by decide) rfl

/-- C8: on every accepted turn of the browser variant, the message context
handed to the engine is exactly the spec-side pairing of the items before
the last one (blank-line joined, None when no pair exists), and the task is
the stripped content of the last (current user) item, which is excluded
from the context. -/
theorem browser_context_matches_spec_pairs (st : BrowserState) (items : List Item)
    (su rt : String) (ns : Session) (r : BrowserOk)
    (h : browserRunFullTurn st items su rt ns = .ok r) :
    r.message_context = specContext items.dropLast ∧
    ∃ last, items.getLast? = some last ∧ r.task = pyStrip last.content := by
  cases hl : items.getLast? with
  | none =>
    rw [browserRunFullTurn, hl] at h
    exact Except.noConfusion h
  | some last =>
    by_cases hr : last.role = "user"
    · by_cases hcont : pyStrip last.content = ""
      · rw [browserRunFullTurn, hl] at h
        simp [hr, hcont] at h
      · have hok := browserRunFullTurn_ok st items su rt ns last hl hr hcont
        rw [h] at hok
        injection hok with hok
        subst hok
        exact ⟨messageContext_eq_specContext items, last, rfl, rfl⟩
    · rw [browserRunFullTurn, hl] at h
      simp [hr] at h

/-- C8 witness: a three-item history at a concrete input. -/
theorem browser_context_matches_spec_pairs_witness :
    (⟨true, some "User: hi\nAgent: hello", "open", [⟨"assistant", "done"⟩],
        ⟨some ⟨false⟩⟩⟩ : BrowserOk).message_context
      = specContext ([⟨"user", "hi"⟩, ⟨"assistant", "hello"⟩, ⟨"user", "open"⟩] :
          List Item).dropLast ∧
    ∃ last, ([⟨"user", "hi"⟩, ⟨"assistant", "hello"⟩, ⟨"user", "open"⟩] :
          List Item).getLast? = some last ∧
      (⟨true, some "User: hi\nAgent: hello", "open", [⟨"assistant", "done"⟩],
          ⟨some ⟨false⟩⟩⟩ : BrowserOk).task = pyStrip last.content :=
  browser_context_matches_spec_pairs browserInit
    [⟨"user", "hi"⟩, ⟨"assistant", "hello"⟩, ⟨"user", "open"⟩] "https://x" "done" ⟨false⟩
    ⟨true, some "User: hi\nAgent: hello", "open", [⟨"assistant", "done"⟩], ⟨some ⟨false⟩⟩⟩
    (by
      rw [browserRunFullTurn]
      simp [messageContext, historyPairsGo, renderPair, pyStrip, stripChars]
      exact ⟨rfl, rfl, rfl⟩)


end A11y
